import Mathlib

/-!
Shallow embedding of the day-12 board-game engine
(src/src/day12/game.rs and the handler layer in src/src/day12.rs).

The grid is modelled as a function from row and column indices (both
Fin 4) to optional pieces, matching the Rust array
board : [[Option<GamePiece>; 4]; 4] indexed board[row][column].
The pseudo-random generator (rand StdRng seeded with the fixed constant
2024) is external library code; it is modelled as an abstract boolean
stream together with a draw position, so that gen consumes one boolean
per call.  Every engine operation is translated directly from the Rust
source; early returns of the Rust code become result-and-board pairs in
which the board component is the unmodified input.
-/

/-- Enum GameError from game.rs: the two engine-level failure kinds. -/
inductive GameError where
  | ColumnFull
  | GameOver
deriving DecidableEq, Repr

/-- Enum GamePiece from game.rs. -/
inductive GamePiece where
  | Cookie
  | Milk
deriving DecidableEq, Repr

/-- Enum GameState from game.rs; Running is the Default variant. -/
inductive GameState where
  | Running
  | Winner (piece : GamePiece)
  | Draw
deriving DecidableEq, Repr

/-- The 4x4 grid of optional pieces, indexed grid row column exactly as
the Rust array board[row][column]. -/
def Grid : Type := Fin 4 → Fin 4 → Option GamePiece

instance : DecidableEq Grid := by unfold Grid; infer_instance

/-- Model of the StdRng value: an abstract stream of booleans produced by
the generator algorithm, plus the number of booleans already drawn. -/
structure Rng where
  stream : Nat → Bool
  pos : Nat

/-- Model of rng.gen::<bool>(): draw the next boolean and advance. -/
def Rng.gen (r : Rng) : Bool × Rng :=
  (r.stream r.pos, { r with pos := r.pos + 1 })

/-- Struct GameBoard from game.rs: generator, grid and current state. -/
structure GameBoard where
  rng : Rng
  board : Grid
  state : GameState

/-- GameBoard::default(): empty grid, Running state, generator seeded
with the fixed constant 2024.  The boolean stream s abstracts the output
sequence of StdRng::seed_from_u64(2024); because the seed is a constant,
every fresh board receives the same stream. -/
def GameBoard.default (s : Nat → Bool) : GameBoard :=
  { rng := { stream := s, pos := 0 }
    board := fun _ _ => none
    state := GameState.Running }

/-- Functional update of one grid cell, the effect of the Rust
assignment board[row][column] = v. -/
def setCell (g : Grid) (row column : Fin 4) (v : Option GamePiece) : Grid :=
  fun r c => if r = row ∧ c = column then v else g r c

/-- Helper all_same from game.rs: first element of the line if every
element equals it, None otherwise (also None on an empty line). -/
def all_same : List (Option GamePiece) → Option GamePiece
  | [] => none
  | first :: rest => if rest.all (fun cell => cell = first) then first else none

/-- Method get_row from game.rs: collects board[y][row] for y in 0..4.
Note that in board coordinates this is the column with index row. -/
def get_row (g : Grid) (row : Fin 4) : List (Option GamePiece) :=
  (List.finRange 4).map (fun y => g y row)

/-- Method get_column from game.rs: board[column].to_vec(), the cells
board[column][i] for i in 0..4.  In board coordinates this is the row
with index column. -/
def get_column (g : Grid) (column : Fin 4) : List (Option GamePiece) :=
  (List.finRange 4).map (fun i => g column i)

/-- Method get_diagonals from game.rs: the main diagonal board[i][i]
followed by the anti-diagonal board[i][3-i]. -/
def get_diagonals (g : Grid) : List (List (Option GamePiece)) :=
  [(List.finRange 4).map (fun i => g i i),
   (List.finRange 4).map (fun i => g i (3 - i))]

/-- Method get_combinations from game.rs: the ten candidate lines in the
order get_row 0..4, then get_column 0..4, then the two diagonals. -/
def get_combinations (g : Grid) : List (List (Option GamePiece)) :=
  (List.finRange 4).map (get_row g)
    ++ (List.finRange 4).map (get_column g)
    ++ get_diagonals g

/-- Method update_state from game.rs: when Running, the first line on
which all_same succeeds makes a Winner; otherwise, if every cell of
every line is occupied the state becomes Draw, else it stays Running.
When not Running the state is left unchanged.  Returns the new state
paired with the updated board, mirroring the Rust return of self.state
after the assignment. -/
def update_state (b : GameBoard) : GameState × GameBoard :=
  let st :=
    match b.state with
    | GameState.Running =>
      match (get_combinations b.board).findSome? all_same with
      | some winner => GameState.Winner winner
      | none =>
        if (get_combinations b.board).all
            (fun combination => combination.all Option.isSome) then
          GameState.Draw
        else
          GameState.Running
    | s => s
  (st, { b with state := st })

/-- The column scan of place: (0..4).rev().find of the first row whose
cell in the chosen column is empty, i.e. scanning rows 3,2,1,0. -/
def findAvail (g : Grid) (column : Fin 4) : Option (Fin 4) :=
  [3, 2, 1, 0].find? (fun row => (g row column).isNone)

/-- Method place from game.rs.  The result component is the Ok state or
the error; the board component is the board after the call, which on
either error path is the unmodified input, since the Rust early returns
fire before any assignment. -/
def place (b : GameBoard) (team : GamePiece) (column : Fin 4) :
    Except GameError GameState × GameBoard :=
  match b.state with
  | GameState.Running =>
    match findAvail b.board column with
    | none => (Except.error GameError.ColumnFull, b)
    | some row =>
      let b1 := { b with board := setCell b.board row column (some team) }
      let r := update_state b1
      (Except.ok r.1, r.2)
  | _ => (Except.error GameError.GameOver, b)

/-- The 16 cell coordinates in the row-major order in which randomize
visits them: outer loop over rows, inner loop over the cells of a row. -/
def cellsRowMajor : List (Fin 4 × Fin 4) :=
  (List.finRange 4).flatMap (fun r => (List.finRange 4).map (fun c => (r, c)))

/-- Method randomize from game.rs: every cell is overwritten in
row-major order with Cookie on a true draw and Milk on a false draw; the
state field is not touched. -/
def randomize (b : GameBoard) : GameBoard :=
  let fin := cellsRowMajor.foldl
    (fun (acc : Grid × Rng) rc =>
      let d := acc.2.gen
      (setCell acc.1 rc.1 rc.2
        (some (if d.1 then GamePiece.Cookie else GamePiece.Milk)), d.2))
    (b.board, b.rng)
  { b with board := fin.1, rng := fin.2 }

/-- Display for GamePiece from game.rs. -/
def GamePiece.render : GamePiece → String
  | GamePiece.Cookie => "🍪"
  | GamePiece.Milk => "🥛"

/-- One grid cell as displayed: the piece glyph, or the empty glyph. -/
def renderCell : Option GamePiece → String
  | some piece => piece.render
  | none => "⬛"

/-- Display for GameBoard from game.rs: four wall-bounded rows in
internal row order, the bottom wall, then the outcome line when the
state is Winner or Draw. -/
def renderBoard (b : GameBoard) : String :=
  String.join ((List.finRange 4).map (fun r =>
    "⬜" ++ String.join ((List.finRange 4).map
      (fun c => renderCell (b.board r c))) ++ "⬜\n"))
  ++ "⬜⬜⬜⬜⬜⬜\n"
  ++ (match b.state with
      | GameState.Winner winner => winner.render ++ " wins!\n"
      | GameState.Draw => "No winner.\n"
      | GameState.Running => "")

/-- The reset handler from day12.rs: the shared board is replaced by
GameBoard::default(), which reseeds the generator with the same fixed
constant, hence the same stream s. -/
def reset (s : Nat → Bool) (_ : GameBoard) : GameBoard :=
  GameBoard.default s

/-- One engine call of the kinds the terminal-lock and determinism
claims quantify over. -/
inductive Op where
  | place (team : GamePiece) (column : Fin 4)
  | randomize
deriving DecidableEq, Repr

/-- Apply one call to the shared board: place mutates the board through
its result pair (errors leave it unchanged), randomize always mutates. -/
def applyOp (b : GameBoard) : Op → GameBoard
  | Op.place t c => (place b t c).2
  | Op.randomize => randomize b

/-- Apply a call sequence left to right. -/
def runOps (b : GameBoard) (ops : List Op) : GameBoard :=
  ops.foldl applyOp b

/-!
Helper lemmas shared by the claim theorems.
-/

/-- The ten lines of get_combinations written out in board coordinates:
columns 0..4 first (these are the get_row results), then rows 0..4 (the
get_column results), then the main and anti diagonals. -/
def linesColsFirst (g : Grid) : List (List (Option GamePiece)) :=
  [[g 0 0, g 1 0, g 2 0, g 3 0],
   [g 0 1, g 1 1, g 2 1, g 3 1],
   [g 0 2, g 1 2, g 2 2, g 3 2],
   [g 0 3, g 1 3, g 2 3, g 3 3],
   [g 0 0, g 0 1, g 0 2, g 0 3],
   [g 1 0, g 1 1, g 1 2, g 1 3],
   [g 2 0, g 2 1, g 2 2, g 2 3],
   [g 3 0, g 3 1, g 3 2, g 3 3],
   [g 0 0, g 1 1, g 2 2, g 3 3],
   [g 0 3, g 1 2, g 2 1, g 3 0]]

/-- Modelled from the spec: the ten lines in the order the spec states
for win detection, rows 0..4 first (row r is the cells board[r][0..4]),
then columns 0..4, then the main and anti diagonals. -/
def linesRowsFirst (g : Grid) : List (List (Option GamePiece)) :=
  [[g 0 0, g 0 1, g 0 2, g 0 3],
   [g 1 0, g 1 1, g 1 2, g 1 3],
   [g 2 0, g 2 1, g 2 2, g 2 3],
   [g 3 0, g 3 1, g 3 2, g 3 3],
   [g 0 0, g 1 0, g 2 0, g 3 0],
   [g 0 1, g 1 1, g 2 1, g 3 1],
   [g 0 2, g 1 2, g 2 2, g 3 2],
   [g 0 3, g 1 3, g 2 3, g 3 3],
   [g 0 0, g 1 1, g 2 2, g 3 3],
   [g 0 3, g 1 2, g 2 1, g 3 0]]

lemma get_combinations_explicit (g : Grid) :
    get_combinations g = linesColsFirst g := rfl

lemma all_same_eq_some_iff (l : List (Option GamePiece)) (w : GamePiece)
    (hne : l ≠ []) : all_same l = some w ↔ ∀ x ∈ l, x = some w := by
  cases l with
  | nil => exact absurd rfl hne
  | cons a rest =>
    simp only [all_same]
    split
    case isTrue hall =>
      simp only [List.all_eq_true, decide_eq_true_eq] at hall
      constructor
      · intro h x hx
        rcases List.mem_cons.mp hx with rfl | hx
        · exact h
        · exact (hall x hx).trans h
      · intro h
        exact h a (List.mem_cons_self a rest)
    case isFalse hall =>
      constructor
      · intro h
        exact absurd h (by simp)
      · intro h
        exfalso
        apply hall
        simp only [List.all_eq_true, decide_eq_true_eq]
        intro x hx
        rw [h x (List.mem_cons_of_mem a hx), h a (List.mem_cons_self a rest)]

lemma update_state_board (b : GameBoard) : (update_state b).2.board = b.board := rfl

lemma update_state_rng (b : GameBoard) : (update_state b).2.rng = b.rng := rfl

lemma update_state_snd_state (b : GameBoard) : (update_state b).2.state = (update_state b).1 := rfl

lemma findAvail_some (g : Grid) (c : Fin 4) (row : Fin 4)
    (h : findAvail g c = some row) :
    g row c = none ∧ ∀ r, row < r → g r c ≠ none := by
  unfold findAvail at h
  rcases h3 : g 3 c with _ | p3 <;>
    rcases h2 : g 2 c with _ | p2 <;>
      rcases h1 : g 1 c with _ | p1 <;>
        rcases h0 : g 0 c with _ | p0 <;>
          simp only [List.find?, h3, h2, h1, h0, Option.isNone_none,
            Option.isNone_some, Option.some.injEq] at h <;>
          first
            | (subst h
               refine ⟨by assumption, ?_⟩
               intro r hr
               fin_cases r <;> simp_all)
            | exact absurd h (by simp)

lemma findAvail_none_iff (g : Grid) (c : Fin 4) :
    findAvail g c = none ↔ ∀ r, g r c ≠ none := by
  unfold findAvail
  constructor
  · intro h r
    have := List.find?_eq_none.mp h r (by fin_cases r <;> decide)
    simpa using this
  · intro h
    apply List.find?_eq_none.mpr
    intro r _
    simpa using h r

/-- A concrete stream standing in for a generator output sequence when a
witness needs one. -/
def sampleStream : Nat → Bool := fun _ => true

/-- A freshly constructed board over the sample stream. -/
def freshBoard : GameBoard := GameBoard.default sampleStream

/-- A grid whose only occupied cell is row 0, column 1; on it the first
enumerated line of get_combinations (column 0, all empty) differs from
the first line the spec states (row 0, which holds the piece). -/
def gOneCell : Grid := setCell (fun _ _ => none) 0 1 (some GamePiece.Cookie)

/-- A Running board whose main diagonal already holds four Cookies. -/
def diagBoard : GameBoard :=
  { rng := { stream := sampleStream, pos := 0 }
    board := fun r c => if r = c then some GamePiece.Cookie else none
    state := GameState.Running }

/-- C1 counterexample: the claim states that win detection enumerates
the ten lines rows first, then columns, then the diagonals; on the
concrete grid with a single piece at row 0, column 1 the enumeration of
get_combinations differs from that stated order, because the code
enumerates the columns first. -/
theorem C1_counterexample :
    get_combinations gOneCell ≠ linesRowsFirst gOneCell := by decide

/-- C1 amended: win detection enumerates exactly 10 lines — the 4
columns (index 0..4), then the 4 rows, then the main diagonal cells
(i,i) and the anti-diagonal cells (i,3-i) — and for any Running board
the winner is the piece of the first line in that order whose 4 cells
are all occupied and hold the same piece, the Outcome becoming Won of
that piece; a line wins for piece w exactly when all of its cells hold
w. -/
theorem C1_win_detection (b : GameBoard) (hb : b.state = GameState.Running) :
    get_combinations b.board = linesColsFirst b.board ∧
    (∀ w, (get_combinations b.board).findSome? all_same = some w →
      (update_state b).1 = GameState.Winner w ∧
      (update_state b).2.state = GameState.Winner w) ∧
    (∀ (l : List (Option GamePiece)) (w : GamePiece), l ≠ [] →
      (all_same l = some w ↔ ∀ x ∈ l, x = some w)) := by
  refine ⟨get_combinations_explicit b.board, ?_, fun l w hne => all_same_eq_some_iff l w hne⟩
  intro w hw
  constructor <;> simp [update_state, hb, hw]

/-- C1 witness: the amended win-detection theorem applied to the
concrete Running board whose main diagonal holds four Cookies. -/
theorem C1_win_detection_witness :
    diagBoard.state = GameState.Running ∧
    (get_combinations diagBoard.board = linesColsFirst diagBoard.board ∧
    (∀ w, (get_combinations diagBoard.board).findSome? all_same = some w →
      (update_state diagBoard).1 = GameState.Winner w ∧
      (update_state diagBoard).2.state = GameState.Winner w) ∧
    (∀ (l : List (Option GamePiece)) (w : GamePiece), l ≠ [] →
      (all_same l = some w ↔ ∀ x ∈ l, x = some w))) :=
  ⟨rfl, C1_win_detection diagBoard rfl⟩

/-- C2: on a Running board, place scans the chosen column from row 3
upward; when the scan finds a row, that cell is empty, every cell below
it in the column is occupied, and the piece is written exactly there;
when the bottom cell is empty the scan lands on row 3; when the column
has no empty cell the call fails with ColumnFull and the whole board is
unchanged. -/
theorem C2_gravity (b : GameBoard) (t : GamePiece) (c : Fin 4)
    (hb : b.state = GameState.Running) :
    (∀ row, findAvail b.board c = some row →
      b.board row c = none ∧ (∀ r, row < r → b.board r c ≠ none) ∧
      (place b t c).2.board = setCell b.board row c (some t)) ∧
    (b.board 3 c = none → findAvail b.board c = some 3) ∧
    ((∀ r, b.board r c ≠ none) →
      place b t c = (Except.error GameError.ColumnFull, b)) := by
  refine ⟨?_, ?_, ?_⟩
  · intro row hrow
    obtain ⟨hempty, habove⟩ := findAvail_some b.board c row hrow
    refine ⟨hempty, habove, ?_⟩
    simp [place, hb, hrow, update_state_board]
  · intro h3
    unfold findAvail
    simp [List.find?, h3]
  · intro hfull
    have hnone : findAvail b.board c = none := (findAvail_none_iff b.board c).mpr hfull
    simp [place, hb, hnone]

/-- C2 witness: gravity facts instantiated on a fresh board and column
0, where the bottom cell is empty and the scan lands on row 3. -/
theorem C2_gravity_witness :
    freshBoard.state = GameState.Running ∧
    (freshBoard.board 3 0 = none → findAvail freshBoard.board 0 = some 3) :=
  ⟨rfl, (C2_gravity freshBoard GamePiece.Cookie 0 rfl).2.1⟩

/-- Discriminator for place calls among the engine operations. -/
def Op.isPlace : Op → Bool
  | Op.place _ _ => true
  | Op.randomize => false

lemma place_terminal (b : GameBoard) (t : GamePiece) (c : Fin 4)
    (hb : b.state ≠ GameState.Running) :
    place b t c = (Except.error GameError.GameOver, b) := by
  rcases hs : b.state with _ | p | _
  · exact absurd hs hb
  · simp [place, hs]
  · simp [place, hs]

/-- A board driven to a Won state by four placements in column 0. -/
def terminalBoard : GameBoard :=
  runOps freshBoard
    [Op.place GamePiece.Cookie 0, Op.place GamePiece.Cookie 0,
     Op.place GamePiece.Cookie 0, Op.place GamePiece.Cookie 0]

/-- C3 counterexample: on a concrete Won board, the call sequence made
of the single operation randomize changes a cell of the grid (cell
row 0, column 1 goes from empty to occupied), so it is not true that
every sequence of place and randomize calls leaves a terminal board's
grid unchanged. -/
theorem C3_counterexample :
    terminalBoard.state = GameState.Winner GamePiece.Cookie ∧
    (runOps terminalBoard [Op.randomize]).board 0 1 ≠ terminalBoard.board 0 1 := by
  constructor
  · decide
  · decide

/-- C3 amended: for every board whose Outcome is Won or Draw, no place
call changes the board: any sequence of place operations leaves the
whole board, its grid in particular, exactly as it was; randomize,
however, does overwrite the cells even on a terminal board. -/
theorem C3_terminal_place_frame (b : GameBoard)
    (hb : b.state ≠ GameState.Running) (ops : List Op)
    (hops : ∀ op ∈ ops, op.isPlace = true) :
    runOps b ops = b := by
  induction ops with
  | nil => rfl
  | cons op rest ih =>
    cases op with
    | place t c =>
      have hstep : applyOp b (Op.place t c) = b := by
        simp [applyOp, place_terminal b t c hb]
      calc runOps b (Op.place t c :: rest)
          = runOps (applyOp b (Op.place t c)) rest := rfl
        _ = runOps b rest := by rw [hstep]
        _ = b := ih (fun o ho => hops o (List.mem_cons_of_mem _ ho))
    | randomize =>
      exact absurd (hops Op.randomize (List.mem_cons_self _ _)) (by simp [Op.isPlace])

/-- C3 witness: the terminal frame theorem applied to the concrete Won
board and a one-element sequence of place calls. -/
theorem C3_terminal_place_frame_witness :
    terminalBoard.state ≠ GameState.Running ∧
    (∀ op ∈ [Op.place GamePiece.Milk 1], op.isPlace = true) ∧
    runOps terminalBoard [Op.place GamePiece.Milk 1] = terminalBoard :=
  ⟨by decide, by decide,
    C3_terminal_place_frame terminalBoard (by decide)
      [Op.place GamePiece.Milk 1] (by decide)⟩

/-- C4: place fails with GameOver exactly when the state is not
Running, fails with ColumnFull exactly when the state is Running and the
chosen column has no empty cell, leaves the whole board (grid, state and
generator) unchanged on either failure, and ColumnFull and GameOver are
the only error kinds. -/
theorem C4_place_errors (b : GameBoard) (t : GamePiece) (c : Fin 4) :
    ((place b t c).1 = Except.error GameError.GameOver ↔
      b.state ≠ GameState.Running) ∧
    ((place b t c).1 = Except.error GameError.ColumnFull ↔
      (b.state = GameState.Running ∧ ∀ r, b.board r c ≠ none)) ∧
    (∀ e, (place b t c).1 = Except.error e → (place b t c).2 = b) ∧
    (∀ e : GameError, e = GameError.ColumnFull ∨ e = GameError.GameOver) := by
  have herr : ∀ e : GameError, e = GameError.ColumnFull ∨ e = GameError.GameOver := by
    intro e; cases e
    · exact Or.inl rfl
    · exact Or.inr rfl
  rcases hs : b.state with _ | p | _
  · rcases hf : findAvail b.board c with _ | row
    · have hfull := (findAvail_none_iff b.board c).mp hf
      refine ⟨?_, ?_, ?_, herr⟩
      · simp [place, hs, hf]
      · simp [place, hs, hf, hfull]
      · intro e he
        simp [place, hs, hf]
    · refine ⟨?_, ?_, ?_, herr⟩
      · simp [place, hs, hf]
      · rw [place]
        simp only [hs, hf]
        constructor
        · intro h
          exact absurd h (by simp)
        · rintro ⟨-, hfull⟩
          have := (findAvail_none_iff b.board c).mpr hfull
          rw [this] at hf
          exact absurd hf (by simp)
      · intro e he
        rw [place] at he
        simp only [hs, hf] at he
        exact absurd he (by simp)
  · refine ⟨?_, ?_, ?_, herr⟩
    · simp [place, hs]
    · simp [place, hs]
    · intro e he
      simp [place, hs]
  · refine ⟨?_, ?_, ?_, herr⟩
    · simp [place, hs]
    · simp [place, hs]
    · intro e he
      simp [place, hs]

/-- C10: whenever place returns Ok of an outcome, that outcome is
exactly the state stored in the board the call leaves behind. -/
theorem C10_result_matches_state (b : GameBoard) (t : GamePiece) (c : Fin 4)
    (st : GameState) (h : (place b t c).1 = Except.ok st) :
    (place b t c).2.state = st := by
  rcases hs : b.state with _ | p | _
  · rcases hf : findAvail b.board c with _ | row
    · rw [place] at h
      simp only [hs, hf] at h
      exact absurd h (by simp)
    · rw [place] at h ⊢
      simp only [hs, hf] at h ⊢
      rw [update_state_snd_state]
      exact (Except.ok.injEq _ _).mp h
  · rw [place] at h
    simp only [hs] at h
    exact absurd h (by simp)
  · rw [place] at h
    simp only [hs] at h
    exact absurd h (by simp)

/-- C10 witness: a concrete successful placement on a fresh board whose
returned outcome, Running, matches the stored state. -/
theorem C10_result_matches_state_witness :
    (place freshBoard GamePiece.Cookie 0).1 = Except.ok GameState.Running ∧
    (place freshBoard GamePiece.Cookie 0).2.state = GameState.Running :=
  ⟨rfl,
    C10_result_matches_state freshBoard GamePiece.Cookie 0 GameState.Running
      rfl⟩

lemma mem_line_exists_cell (g : Grid) (l : List (Option GamePiece))
    (hl : l ∈ get_combinations g) (x : Option GamePiece) (hx : x ∈ l) :
    ∃ r c, x = g r c := by
  simp only [get_combinations, get_diagonals, List.mem_append, List.mem_map,
    List.mem_finRange, List.mem_cons, List.mem_singleton, true_and,
    List.not_mem_nil, or_false] at hl
  rcases hl with (⟨i, rfl⟩ | ⟨i, rfl⟩) | (rfl | rfl)
  · simp only [get_row, List.mem_map, List.mem_finRange, true_and] at hx
    obtain ⟨y, rfl⟩ := hx
    exact ⟨y, i, rfl⟩
  · simp only [get_column, List.mem_map, List.mem_finRange, true_and] at hx
    obtain ⟨y, rfl⟩ := hx
    exact ⟨i, y, rfl⟩
  · simp only [List.mem_map, List.mem_finRange, true_and] at hx
    obtain ⟨y, rfl⟩ := hx
    exact ⟨y, y, rfl⟩
  · simp only [List.mem_map, List.mem_finRange, true_and] at hx
    obtain ⟨y, rfl⟩ := hx
    exact ⟨y, 3 - y, rfl⟩

lemma lines_all_occupied_iff (g : Grid) :
    ((get_combinations g).all (fun l => l.all Option.isSome) = true) ↔
      ∀ r c : Fin 4, (g r c).isSome := by
  simp only [List.all_eq_true]
  constructor
  · intro h r c
    have hline : get_row g c ∈ get_combinations g := by
      simp only [get_combinations, List.mem_append, List.mem_map,
        List.mem_finRange, true_and]
      exact Or.inl (Or.inl ⟨c, rfl⟩)
    have hcell : g r c ∈ get_row g c := by
      simp only [get_row, List.mem_map, List.mem_finRange, true_and]
      exact ⟨r, rfl⟩
    exact h (get_row g c) hline (g r c) hcell
  · intro h l hl x hx
    obtain ⟨r, c, rfl⟩ := mem_line_exists_cell g l hl x hx
    exact h r c

/-- C5: after a successful placement with no winning line, the state
becomes Draw exactly when all 16 cells are occupied and remains Running
otherwise; and the code's draw test, namely that every one of the ten
enumerated lines is fully occupied, is equivalent to all 16 cells being
occupied. -/
theorem C5_draw_iff_full (b : GameBoard) (hb : b.state = GameState.Running)
    (hw : (get_combinations b.board).findSome? all_same = none) :
    (((get_combinations b.board).all (fun l => l.all Option.isSome) = true) ↔
      ∀ r c : Fin 4, (b.board r c).isSome) ∧
    ((∀ r c : Fin 4, (b.board r c).isSome) →
      (update_state b).2.state = GameState.Draw) ∧
    ((¬ ∀ r c : Fin 4, (b.board r c).isSome) →
      (update_state b).2.state = GameState.Running) := by
  refine ⟨lines_all_occupied_iff b.board, ?_, ?_⟩
  · intro hfull
    have hall : (get_combinations b.board).all (fun l => l.all Option.isSome) = true :=
      (lines_all_occupied_iff b.board).mpr hfull
    simp [update_state, hb, hw, hall]
  · intro hnotfull
    have hall : ¬ ((get_combinations b.board).all (fun l => l.all Option.isSome) = true) :=
      fun h => hnotfull ((lines_all_occupied_iff b.board).mp h)
    simp [update_state, hb, hw, hall]

/-- C5 witness: the draw characterization instantiated on the fresh
empty board, which has no winning line and is not fully occupied, so the
state stays Running. -/
theorem C5_draw_iff_full_witness :
    freshBoard.state = GameState.Running ∧
    (get_combinations freshBoard.board).findSome? all_same = none ∧
    ((¬ ∀ r c : Fin 4, (freshBoard.board r c).isSome) →
      (update_state freshBoard).2.state = GameState.Running) :=
  ⟨rfl, by decide, (C5_draw_iff_full freshBoard rfl (by decide)).2.2⟩

lemma cellsRowMajor_eq :
    cellsRowMajor =
      [(0, 0), (0, 1), (0, 2), (0, 3),
       (1, 0), (1, 1), (1, 2), (1, 3),
       (2, 0), (2, 1), (2, 2), (2, 3),
       (3, 0), (3, 1), (3, 2), (3, 3)] := rfl

/-- C6: randomize always succeeds, overwrites every one of the 16 cells
by drawing one boolean per cell from the generator in row-major order
(the cell at row r, column c receives the draw numbered 4r + c), filling
with Cookie on true and Milk on false, and leaves both the state field
and the generator's stream exactly as they were, the draw position
having advanced by 16; in particular no win or draw recomputation
happens. -/
theorem C6_randomize (b : GameBoard) :
    (randomize b).state = b.state ∧
    (randomize b).rng.stream = b.rng.stream ∧
    (randomize b).rng.pos = b.rng.pos + 16 ∧
    (∀ r c : Fin 4, (randomize b).board r c =
      some (if b.rng.stream (b.rng.pos + (4 * r.val + c.val)) then
        GamePiece.Cookie else GamePiece.Milk)) := by
  obtain ⟨⟨s, p⟩, g, st⟩ := b
  refine ⟨rfl, rfl, rfl, ?_⟩
  intro r c
  fin_cases r <;> fin_cases c <;>
    simp +decide [randomize, cellsRowMajor_eq, Rng.gen, setCell]

/-- C7: two freshly constructed boards over the same seed stream, given
the same sequence of randomize and place calls, render to byte-identical
text. -/
theorem C7_determinism (s : Nat → Bool) (ops : List Op) (b1 b2 : GameBoard)
    (h1 : b1 = GameBoard.default s) (h2 : b2 = GameBoard.default s) :
    renderBoard (runOps b1 ops) = renderBoard (runOps b2 ops) := by
  subst h1
  subst h2
  rfl

/-- C7 witness: determinism applied to two copies of the fresh sample
board on a sequence of one randomize and one place call. -/
theorem C7_determinism_witness :
    freshBoard = GameBoard.default sampleStream ∧
    renderBoard (runOps freshBoard [Op.randomize, Op.place GamePiece.Milk 2]) =
      renderBoard (runOps freshBoard [Op.randomize, Op.place GamePiece.Milk 2]) :=
  ⟨rfl,
    C7_determinism sampleStream [Op.randomize, Op.place GamePiece.Milk 2]
      freshBoard freshBoard rfl rfl⟩

/-- The one fixed empty-board text: four rows of empty cells between
walls, the bottom wall, and no trailing outcome line. -/
def emptyBoardText : String :=
  "⬜⬛⬛⬛⬛⬜\n⬜⬛⬛⬛⬛⬜\n⬜⬛⬛⬛⬛⬜\n⬜⬛⬛⬛⬛⬜\n⬜⬜⬜⬜⬜⬜\n"

/-- C8: after a reset the rendered text is the fixed empty-board text,
the state is Running, the generator equals a fresh board's generator
(same stream, position zero), and reset followed by any call sequence
behaves identically to a fresh board given that sequence. -/
theorem C8_reset (s : Nat → Bool) (b : GameBoard) :
    renderBoard (reset s b) = emptyBoardText ∧
    (reset s b).state = GameState.Running ∧
    (reset s b).rng = (GameBoard.default s).rng ∧
    (∀ ops : List Op, runOps (reset s b) ops = runOps (GameBoard.default s) ops) :=
  ⟨rfl, rfl, rfl, fun _ => rfl⟩

/-- Result type of the total embedding of place: the Ok outcome, an
engine error, or the out-of-bounds branch that corresponds to an index
panic in the Rust code. -/
inductive PlaceResult where
  | ok (s : GameState)
  | err (e : GameError)
  | oob
deriving DecidableEq, Repr

/-- Total embedding of the column scan of place: the scan indexes
board[row][column] for row 3 first, so a column outside the grid is an
out-of-bounds access (outer none); otherwise it behaves as findAvail. -/
def findAvailChecked (g : Grid) (column : Nat) : Option (Option (Fin 4)) :=
  if h : column < 4 then some (findAvail g ⟨column, h⟩) else none

/-- Total embedding of place over a raw Nat column: every
board[row][column] access is bounds-checked and an out-of-range access
yields the oob branch instead of the Rust panic. -/
def placeChecked (b : GameBoard) (team : GamePiece) (column : Nat) :
    PlaceResult × GameBoard :=
  match b.state with
  | GameState.Running =>
    match findAvailChecked b.board column with
    | none => (PlaceResult.oob, b)
    | some none => (PlaceResult.err GameError.ColumnFull, b)
    | some (some row) =>
      if h : column < 4 then
        let b1 := { b with board := setCell b.board row ⟨column, h⟩ (some team) }
        let r := update_state b1
        (PlaceResult.ok r.1, r.2)
      else (PlaceResult.oob, b)
  | _ => (PlaceResult.err GameError.GameOver, b)

/-- Responses of the place handler in day12.rs. -/
inductive HttpResp where
  | badRequest
  | okText (body : String)
  | unavailable (body : String)

/-- The place handler from day12.rs: a wire-level 1-based column outside
1..5 is rejected with BAD_REQUEST before the engine is called; otherwise
the engine is called with column - 1 and the rendered board is returned,
with 503 when the game is over or the placement failed. -/
def placeHandler (b : GameBoard) (team : GamePiece) (column : Nat) :
    HttpResp × GameBoard :=
  if ¬ (1 ≤ column ∧ column < 5) then (HttpResp.badRequest, b)
  else
    match b.state with
    | GameState.Running =>
      let r := placeChecked b team (column - 1)
      match r.1 with
      | PlaceResult.ok _ => (HttpResp.okText (renderBoard r.2), r.2)
      | _ => (HttpResp.unavailable (renderBoard r.2), r.2)
    | _ => (HttpResp.unavailable (renderBoard b), b)

/-- C9: under the precondition that the column is in 0..4, the total
embedding of place never reaches its out-of-bounds branch; the handler
rejects any wire-level 1-based column outside 1..5 with BAD_REQUEST
before calling the engine, and the column it passes after the in-range
check can never reach the out-of-bounds branch either. -/
theorem C9_no_oob :
    (∀ (b : GameBoard) (t : GamePiece) (column : Nat), column < 4 →
      (placeChecked b t column).1 ≠ PlaceResult.oob) ∧
    (∀ (b : GameBoard) (t : GamePiece) (column : Nat),
      ¬ (1 ≤ column ∧ column < 5) →
      placeHandler b t column = (HttpResp.badRequest, b)) ∧
    (∀ (b : GameBoard) (t : GamePiece) (column : Nat),
      1 ≤ column → column < 5 →
      (placeChecked b t (column - 1)).1 ≠ PlaceResult.oob) := by
  have hmain : ∀ (b : GameBoard) (t : GamePiece) (column : Nat), column < 4 →
      (placeChecked b t column).1 ≠ PlaceResult.oob := by
    intro b t column h
    rcases hs : b.state with _ | p | _
    · rw [placeChecked]
      simp only [hs, findAvailChecked, dif_pos h]
      rcases findAvail b.board ⟨column, h⟩ with _ | row
      · simp
      · simp [dif_pos h]
    · simp [placeChecked, hs]
    · simp [placeChecked, hs]
  refine ⟨hmain, ?_, ?_⟩
  · intro b t column hcol
    simp [placeHandler, hcol]
  · intro b t column h1 h5
    exact hmain b t (column - 1) (by omega)

/-- C9 witness: the in-range precondition and the absence of the
out-of-bounds branch at a concrete call on a fresh board. -/
theorem C9_no_oob_witness :
    (0 : Nat) < 4 ∧
    (placeChecked freshBoard GamePiece.Cookie 0).1 ≠ PlaceResult.oob :=
  ⟨by decide, C9_no_oob.1 freshBoard GamePiece.Cookie 0 (by decide)⟩
